import Mathlib

/-!
Verification development for the SEC financial analytics pipeline.

The definitions below are a shallow embedding of the fact-normalization and
upsert pipeline:

* `src/data_collector.py` — `SECDataCollector.extract_financial_metrics`
  (fact-bag extraction, alias resolution, period grouping, record assembly);
* `src/database_manager.py` — `DatabaseManager.init_database`,
  `insert_financial_statement`, and `export_for_powerbi`
  (SQLite-backed store with `INSERT OR REPLACE` upsert semantics and the
  ratio-deriving export query).

Python dictionaries are modelled as association lists whose lookup returns the
first binding; `dict.get(k)` / `dict.get(k, d)` become `alookup` / `alookupD`.
Values that may be absent (`entry.get('end')`, …) are `Option`s.  Python
truthiness tests (`if not all([...])`, `any(...)`, `if filing_date`) are
modelled exactly: `None`, `0` and `""` are falsy.  SQLite specifics that the
model reflects: `INSERT OR REPLACE` deletes every row conflicting on the
`UNIQUE(cik, period_end_date, form_type)` key and appends the fresh row;
`NOT NULL` columns reject `None` (the Python wrapper catches the resulting
`IntegrityError` and returns `False` with the table unchanged); foreign-key
enforcement is OFF because no connection ever issues `PRAGMA foreign_keys=ON`
(the sqlite3 default), so the declared `FOREIGN KEY (cik)` is not checked.
-/

namespace SecPipeline

/-- Lookup in an association list modelling a Python `dict`: the first binding
for the key wins, `none` when the key is absent (Python `d.get(k)`). -/
def alookup {α : Type} : List (String × α) → String → Option α
  | [], _ => none
  | (k, v) :: rest, key => if k = key then some v else alookup rest key

/-- Python `d.get(k, default)`. -/
def alookupD {α : Type} (m : List (String × α)) (k : String) (d : α) : α :=
  (alookup m k).getD d

/-- Python truthiness of an optional string: `None` and `""` are falsy. -/
def truthyStr : Option String → Bool
  | none => false
  | some s => !s.isEmpty

/-- Python truthiness of an optional integer: `None` and `0` are falsy. -/
def truthyInt : Option Int → Bool
  | none => false
  | some v => v != 0

/-- One XBRL observation as consumed by `extract_financial_metrics`
(`src/data_collector.py`): the fields read via `entry.get('end')`,
`entry.get('form')`, `entry.get('fy')`, `entry.get('filed')`,
`entry.get('val')`.  Each may be absent. -/
structure Entry where
  end_ : Option String
  form : Option String
  fy : Option Int
  filed : Option String
  val : Option Int
deriving DecidableEq, Repr

/-- The `units` mapping of one taxonomy tag: unit kind (`"USD"`,
`"USD/shares"`, …) to its observation list. -/
abbrev UnitMap := List (String × List Entry)

/-- One tag object `us_gaap[sec_name]`; the code reads `.get('units', {})`,
so the `units` key may be absent. -/
structure TagData where
  units : Option UnitMap
deriving DecidableEq, Repr

/-- The `us-gaap` taxonomy of a fact bag: tag name to tag data. -/
abbrev GaapMap := List (String × TagData)

/-- A company-facts payload: the optional `facts` key maps taxonomy names
(`"us-gaap"`, `"dei"`, …) to tag maps. -/
structure CompanyFacts where
  facts : Option (List (String × GaapMap))
deriving DecidableEq, Repr

/-- The `(end, form, fy)` triple built at
`period_key = (entry.get('end'), entry.get('form'), entry.get('fy'))`
(`src/data_collector.py`, period collection loop).  Components may be
absent; the record loop later skips keys with a falsy component. -/
structure PeriodKey where
  end_ : Option String
  form : Option String
  fy : Option Int
deriving DecidableEq, Repr

/-- The metric registry `metric_mappings` of `extract_financial_metrics`,
in Python dict insertion order: canonical metric name to its
priority-ordered alias list. -/
def metric_mappings : List (String × List String) :=
  [("revenue", ["Revenues", "RevenueFromContractWithCustomerExcludingAssessedTax",
                "SalesRevenueNet"]),
   ("net_income", ["NetIncomeLoss", "ProfitLoss"]),
   ("total_assets", ["Assets"]),
   ("stockholders_equity", ["StockholdersEquity"]),
   ("operating_income", ["OperatingIncomeLoss"]),
   ("eps_basic", ["EarningsPerShareBasic"]),
   ("eps_diluted", ["EarningsPerShareDiluted"]),
   ("current_assets", ["AssetsCurrent"]),
   ("current_liabilities", ["LiabilitiesCurrent"]),
   ("total_liabilities", ["Liabilities"]),
   ("operating_cash_flow", ["NetCashProvidedByUsedInOperatingActivities"])]

/-- The unit kinds the extraction accepts, uniformly for every metric:
`['USD', 'USD/shares']` in the source. -/
def acceptUnit (ut : String) : Bool :=
  ut == "USD" || ut == "USD/shares"

/-- The accepted filing forms: `entry.get('form') in ['10-K', '10-Q']`.
Python `None in [...]` is `False`, so an absent form is rejected. -/
def acceptForm (f : Option String) : Bool :=
  f == some "10-K" || f == some "10-Q"

/-- Python `us_gaap[sec_name].get('units', {})`. -/
def unitsOf (td : TagData) : UnitMap :=
  td.units.getD []

/-- Set-insertion used to model `all_periods.add(period_key)`: append only
when the key is not already present (first-seen order is the model's
canonical iteration order for the Python set). -/
def addPeriod (acc : List PeriodKey) (pk : PeriodKey) : List PeriodKey :=
  if pk ∈ acc then acc else acc ++ [pk]

/-- Inner loop of the period-collection pass: scan one observation list and
add the `(end, form, fy)` key of every entry whose form is accepted. -/
def periodsOfEntries (acc : List PeriodKey) : List Entry → List PeriodKey
  | [] => acc
  | e :: es =>
      periodsOfEntries
        (if acceptForm e.form then addPeriod acc ⟨e.end_, e.form, e.fy⟩ else acc) es

/-- Iterate `us_gaap[sec_name].get('units', {}).items()`, keeping only the
unit kinds in `['USD', 'USD/shares']`. -/
def periodsOfUnits (acc : List PeriodKey) : UnitMap → List PeriodKey
  | [] => acc
  | (ut, entries) :: rest =>
      periodsOfUnits (if acceptUnit ut then periodsOfEntries acc entries else acc) rest

/-- Walk the alias list of one metric during period collection
(`if sec_name in us_gaap: ...`). -/
def periodsOfAliases (g : GaapMap) (acc : List PeriodKey) : List String → List PeriodKey
  | [] => acc
  | a :: rest =>
      periodsOfAliases g
        (match alookup g a with
         | some td => periodsOfUnits acc (unitsOf td)
         | none => acc) rest

/-- The period-collection pass of `extract_financial_metrics`: the universe
of distinct `(end, form, fy)` keys across all metrics and aliases. -/
def collectPeriods (g : GaapMap) : List PeriodKey :=
  metric_mappings.foldl (fun acc p => periodsOfAliases g acc p.2) []

/-- Python `for entry in units[unit_type]: if (...) : value = ...; break` —
the first entry whose `end`, `form` and `fy` all equal the period key. -/
def findEntry (pe ft : Option String) (fy : Option Int) : List Entry → Option Entry
  | [] => none
  | e :: es =>
      if e.end_ = pe ∧ e.form = ft ∧ e.fy = fy then some e else findEntry pe ft fy es

/-- Resolution state threaded through the nested loops of one metric:
the current `value` and `filing_date` local variables. -/
abbrev ResState := Option Int × Option String

/-- The `for unit_type in ['USD', 'USD/shares']` loop of the resolution pass:
each matching entry overwrites `(value, filing_date)` (even when its `val`
is `None`), and the loop breaks once `value is not None`. -/
def scanUnits (u : UnitMap) (pe ft : Option String) (fy : Option Int) :
    List String → ResState → ResState
  | [], st => st
  | ut :: uts, st =>
      let st2 :=
        match alookup u ut with
        | some entries =>
            match findEntry pe ft fy entries with
            | some e => (e.val, e.filed)
            | none => st
        | none => st
      if st2.1.isSome then st2 else scanUnits u pe ft fy uts st2

/-- One iteration of the `for sec_name in sec_names` loop: if the alias is
present in `us_gaap`, scan its units in the fixed order
`['USD', 'USD/shares']`. -/
def aliasStep (g : GaapMap) (pe ft : Option String) (fy : Option Int)
    (a : String) (st : ResState) : ResState :=
  match alookup g a with
  | some td => scanUnits (unitsOf td) pe ft fy ["USD", "USD/shares"] st
  | none => st

/-- The alias loop of the resolution pass, breaking as soon as
`value is not None`. -/
def scanAliases (g : GaapMap) (pe ft : Option String) (fy : Option Int) :
    List String → ResState → ResState
  | [], st => st
  | a :: rest, st =>
      let st2 := aliasStep g pe ft fy a st
      if st2.1.isSome then st2 else scanAliases g pe ft fy rest st2

/-- Resolve one metric for one period key: the loops start from
`value = None; filing_date = None`. -/
def resolveMetric (g : GaapMap) (pe ft : Option String) (fy : Option Int)
    (aliases : List String) : ResState :=
  scanAliases g pe ft fy aliases (none, none)

/-- The per-record resolution results in metric iteration order:
`(metric_name, (value, filing_date))` for every canonical metric. -/
def resolvedMetrics (g : GaapMap) (pe ft : Option String) (fy : Option Int) :
    List (String × ResState) :=
  metric_mappings.map (fun p => (p.1, resolveMetric g pe ft fy p.2))

/-- The `if filing_date and not financial_record['filing_date']` fold: the
record's `filing_date` is the first truthy per-metric `filing_date`, in
metric iteration order, regardless of whether that metric's value resolved. -/
def firstFiled : List (String × ResState) → Option String
  | [] => none
  | (_, (_, fd)) :: rest => if truthyStr fd then fd else firstFiled rest

/-- One normalized record as assembled by `extract_financial_metrics`: the
Python dict with the fixed keys `cik`, `period_end_date`, `form_type`,
`fiscal_year`, `filing_date` plus one slot per canonical metric.  The
`fiscal_quarter` and `accession_number` keys are never set by extraction
(`dict.get` yields `None` at insert time) but are modelled so that arbitrary
records can be passed to the store. -/
structure FinancialRecord where
  cik : String
  period_end_date : Option String
  form_type : Option String
  fiscal_year : Option Int
  filing_date : Option String
  fiscal_quarter : Option Int := none
  accession_number : Option String := none
  metrics : List (String × Option Int)
deriving DecidableEq, Repr

/-- Python `financial_data.get(metric_name)` on the record dict. -/
def getMetric (r : FinancialRecord) (name : String) : Option Int :=
  (alookup r.metrics name).getD none

/-- Assemble the record for one period key (the body of
`for period_end, form_type, fiscal_year in all_periods`). -/
def buildRecord (cik : String) (g : GaapMap) (pe ft : Option String)
    (fy : Option Int) : FinancialRecord :=
  { cik := cik
    period_end_date := pe
    form_type := ft
    fiscal_year := fy
    filing_date := firstFiled (resolvedMetrics g pe ft fy)
    metrics := (resolvedMetrics g pe ft fy).map (fun p => (p.1, p.2.1)) }

/-- Python `us_gaap = company_facts.get('facts', {}).get('us-gaap', {})`
(two statements in the source), with the leading `if not company_facts`
falsy test handled by the caller. -/
def usGaapOf : Option CompanyFacts → GaapMap
  | none => []
  | some c => alookupD (c.facts.getD []) "us-gaap" []

/-- Python `any(financial_record.get(metric) for metric in metric_mappings)`:
at least one metric slot is truthy (non-`None` and nonzero). -/
def anyTruthyMetric (r : FinancialRecord) : Bool :=
  r.metrics.any (fun p => truthyInt p.2)

/-- `SECDataCollector.extract_financial_metrics` (`src/data_collector.py`):
empty output for a falsy fact bag; otherwise one record per collected period
key whose three components are all truthy and whose assembled record has at
least one truthy metric slot. -/
def extract_financial_metrics (cf : Option CompanyFacts) (cik : String) :
    List FinancialRecord :=
  match cf with
  | none => []
  | some c =>
      let g := usGaapOf (some c)
      (collectPeriods g).filterMap (fun pk =>
        if truthyStr pk.end_ && truthyStr pk.form && truthyInt pk.fy then
          let r := buildRecord cik g pk.end_ pk.form pk.fy
          if anyTruthyMetric r then some r else none
        else none)

/-- One row of the `companies` table (`init_database`,
`src/database_manager.py`); the timestamp columns are omitted, no claim
concerns them. -/
structure CompanyRow where
  cik : String
  ticker : String
  company_name : String
  sic_code : Option String
  industry : Option String
deriving DecidableEq, Repr

/-- One row of the `financial_statements` table.  Columns declared
`NOT NULL` are plain values; nullable columns are `Option`s.  The
`id AUTOINCREMENT` surrogate and timestamp column are omitted — no claim
concerns them.  `operating_expenses`, `shares_outstanding` and
`free_cash_flow` exist in the schema but are absent from the insert column
list, so they are always `none`. -/
structure StatementRow where
  cik : String
  filing_date : String
  period_end_date : String
  form_type : String
  fiscal_year : Int
  fiscal_quarter : Option Int
  revenue : Option Int
  cost_of_revenue : Option Int
  gross_profit : Option Int
  operating_expenses : Option Int
  operating_income : Option Int
  net_income : Option Int
  eps_basic : Option Int
  eps_diluted : Option Int
  shares_outstanding : Option Int
  total_assets : Option Int
  current_assets : Option Int
  total_liabilities : Option Int
  current_liabilities : Option Int
  stockholders_equity : Option Int
  operating_cash_flow : Option Int
  investing_cash_flow : Option Int
  financing_cash_flow : Option Int
  free_cash_flow : Option Int
  accession_number : Option String
deriving DecidableEq, Repr

/-- The uniqueness key of `financial_statements`:
`UNIQUE(cik, period_end_date, form_type)`. -/
def rowKey (row : StatementRow) : String × String × String :=
  (row.cik, row.period_end_date, row.form_type)

/-- The two logical tables created by `init_database`. -/
structure Database where
  companies : List CompanyRow
  financial_statements : List StatementRow
deriving DecidableEq, Repr

/-- `init_database` on a fresh file: both tables empty. -/
def init_database : Database :=
  { companies := [], financial_statements := [] }

/-- The row written by the `INSERT OR REPLACE INTO financial_statements`
statement: key fields from the record dict, every other listed column via
`financial_data.get(...)`. -/
def mkStatementRow (r : FinancialRecord) (fd pe ft : String) (fy : Int) :
    StatementRow :=
  { cik := r.cik
    filing_date := fd
    period_end_date := pe
    form_type := ft
    fiscal_year := fy
    fiscal_quarter := r.fiscal_quarter
    revenue := getMetric r "revenue"
    cost_of_revenue := getMetric r "cost_of_revenue"
    gross_profit := getMetric r "gross_profit"
    operating_expenses := none
    operating_income := getMetric r "operating_income"
    net_income := getMetric r "net_income"
    eps_basic := getMetric r "eps_basic"
    eps_diluted := getMetric r "eps_diluted"
    shares_outstanding := none
    total_assets := getMetric r "total_assets"
    current_assets := getMetric r "current_assets"
    total_liabilities := getMetric r "total_liabilities"
    current_liabilities := getMetric r "current_liabilities"
    stockholders_equity := getMetric r "stockholders_equity"
    operating_cash_flow := getMetric r "operating_cash_flow"
    investing_cash_flow := getMetric r "investing_cash_flow"
    financing_cash_flow := getMetric r "financing_cash_flow"
    free_cash_flow := none
    accession_number := r.accession_number }

/-- `DatabaseManager.insert_financial_statement` at the statements-table
level.  A `None` in a `NOT NULL` column (`filing_date`, `period_end_date`,
`form_type`, `fiscal_year`) raises `IntegrityError`, which the wrapper
catches: `(false, rows)` with the table unchanged.  Otherwise
`INSERT OR REPLACE` deletes every row agreeing on the
`(cik, period_end_date, form_type)` key and appends the fresh row.
The `companies` table is not consulted: no connection enables
`PRAGMA foreign_keys`, so SQLite leaves the declared foreign key unchecked. -/
def insertStmt (rows : List StatementRow) (r : FinancialRecord) :
    Bool × List StatementRow :=
  match r.filing_date, r.period_end_date, r.form_type, r.fiscal_year with
  | some fd, some pe, some ft, some fy =>
      (true,
        rows.filter (fun row => !(decide (rowKey row = (r.cik, pe, ft))))
          ++ [mkStatementRow r fd pe ft fy])
  | _, _, _, _ => (false, rows)

/-- `insert_financial_statement` on the whole database: the companies table
is never read or written by this operation. -/
def insert_financial_statement (db : Database) (r : FinancialRecord) :
    Bool × Database :=
  let res := insertStmt db.financial_statements r
  (res.1, { db with financial_statements := res.2 })

/-- Upsert a batch of records in order at the statements-table level
(the caller's `for record in financial_data: insert_financial_statement`). -/
def upsertAllStmts (rs : List FinancialRecord) (rows : List StatementRow) :
    List StatementRow :=
  rs.foldl (fun s r => (insertStmt s r).2) rows

/-- Upsert a batch of records in order on the whole database. -/
def db_upsertAll (rs : List FinancialRecord) (db : Database) : Database :=
  rs.foldl (fun d r => (insert_financial_statement d r).2) db

/-- Round a rational to two decimal places, half away from zero, modelling
SQLite's `ROUND(x, 2)`. -/
def round2 (q : Rat) : Rat :=
  ((if q < 0 then -((-q * 100 + 1/2).floor) else (q * 100 + 1/2).floor : Int) : Rat) / 100

/-- `ROUND(col / 1000000.0, 2)` with SQL `NULL` propagation. -/
def toMillions (v : Option Int) : Option Rat :=
  v.map (fun n => round2 ((n : Rat) / 1000000))

/-- One row of the `export_for_powerbi` result set. -/
structure ExportRow where
  ticker : String
  company_name : String
  industry : Option String
  fiscal_year : Int
  fiscal_quarter : Option Int
  form_type : String
  filing_date : String
  period_end_date : String
  revenue_millions : Option Rat
  cost_of_revenue_millions : Option Rat
  gross_profit_millions : Option Rat
  operating_income_millions : Option Rat
  net_income_millions : Option Rat
  eps_basic : Option Int
  eps_diluted : Option Int
  total_assets_millions : Option Rat
  current_assets_millions : Option Rat
  total_liabilities_millions : Option Rat
  current_liabilities_millions : Option Rat
  stockholders_equity_millions : Option Rat
  operating_cash_flow_millions : Option Rat
  investing_cash_flow_millions : Option Rat
  financing_cash_flow_millions : Option Rat
  net_margin_percent : Option Rat
  operating_margin_percent : Option Rat
  current_ratio : Option Rat
  debt_to_assets_percent : Option Rat
deriving DecidableEq, Repr

/-- The `SELECT` list of `export_for_powerbi` for one joined
`(company, statement)` pair, including the four guarded ratios.  A SQL
`CASE WHEN col > 0` with `col` `NULL` is not true, so each guard falls to
`ELSE NULL`; a `NULL` numerator inside a taken branch also yields `NULL`. -/
def exportRow (c : CompanyRow) (fs : StatementRow) : ExportRow :=
  { ticker := c.ticker
    company_name := c.company_name
    industry := c.industry
    fiscal_year := fs.fiscal_year
    fiscal_quarter := fs.fiscal_quarter
    form_type := fs.form_type
    filing_date := fs.filing_date
    period_end_date := fs.period_end_date
    revenue_millions := toMillions fs.revenue
    cost_of_revenue_millions := toMillions fs.cost_of_revenue
    gross_profit_millions := toMillions fs.gross_profit
    operating_income_millions := toMillions fs.operating_income
    net_income_millions := toMillions fs.net_income
    eps_basic := fs.eps_basic
    eps_diluted := fs.eps_diluted
    total_assets_millions := toMillions fs.total_assets
    current_assets_millions := toMillions fs.current_assets
    total_liabilities_millions := toMillions fs.total_liabilities
    current_liabilities_millions := toMillions fs.current_liabilities
    stockholders_equity_millions := toMillions fs.stockholders_equity
    operating_cash_flow_millions := toMillions fs.operating_cash_flow
    investing_cash_flow_millions := toMillions fs.investing_cash_flow
    financing_cash_flow_millions := toMillions fs.financing_cash_flow
    net_margin_percent :=
      match fs.revenue with
      | some rv =>
          if 0 < rv then fs.net_income.map (fun ni => round2 ((ni : Rat) * 100 / (rv : Rat)))
          else none
      | none => none
    operating_margin_percent :=
      match fs.revenue with
      | some rv =>
          if 0 < rv then
            fs.operating_income.map (fun oi => round2 ((oi : Rat) * 100 / (rv : Rat)))
          else none
      | none => none
    current_ratio :=
      match fs.current_liabilities with
      | some cl =>
          if 0 < cl then
            fs.current_assets.map (fun ca => round2 ((ca : Rat) * 1 / (cl : Rat)))
          else none
      | none => none
    debt_to_assets_percent :=
      match fs.total_assets with
      | some ta =>
          if 0 < ta then
            fs.total_liabilities.map (fun tl => round2 ((tl : Rat) * 100 / (ta : Rat)))
          else none
      | none => none }

/-- The comparator of `ORDER BY c.ticker, fs.fiscal_year DESC, fs.form_type`. -/
def rowLE (a b : ExportRow) : Bool :=
  if a.ticker ≠ b.ticker then decide (a.ticker < b.ticker)
  else if a.fiscal_year ≠ b.fiscal_year then decide (b.fiscal_year < a.fiscal_year)
  else decide (¬ b.form_type < a.form_type)

/-- Insertion step of the sort modelling the SQL `ORDER BY`. -/
def insertSorted (x : ExportRow) : List ExportRow → List ExportRow
  | [] => [x]
  | y :: ys => if rowLE x y then x :: y :: ys else y :: insertSorted x ys

/-- Sort modelling the SQL `ORDER BY` (which particular stable order SQLite
returns among ties is unspecified; every claim is order-independent). -/
def sortRows : List ExportRow → List ExportRow
  | [] => []
  | x :: xs => insertSorted x (sortRows xs)

/-- `DatabaseManager.export_for_powerbi`: join statements to companies on
`cik`, keep only statements with `revenue IS NOT NULL`, compute the select
list, order the rows.  The CSV side effect is outside the model. -/
def export_for_powerbi (db : Database) : List ExportRow :=
  sortRows
    ((db.financial_statements.filter (fun fs => fs.revenue.isSome)).flatMap
      (fun fs =>
        (db.companies.filter (fun c => c.cik == fs.cik)).map
          (fun c => exportRow c fs)))

/-! ### Concrete inputs used by witnesses and counterexamples -/

/-- Shorthand for a fully-populated observation. -/
def mkEntry (e f : String) (y : Int) (d : String) (v : Option Int) : Entry :=
  ⟨some e, some f, some y, some d, v⟩

/-- Fact bag of the end-to-end example: `Revenues` 1000 and `NetIncomeLoss`
100 for the 2023 10-K. -/
def cfExample : Option CompanyFacts :=
  some ⟨some [("us-gaap",
    [("Revenues", ⟨some [("USD", [mkEntry "2023-12-31" "10-K" 2023 "2024-02-01" (some 1000)])]⟩),
     ("NetIncomeLoss", ⟨some [("USD", [mkEntry "2023-12-31" "10-K" 2023 "2024-02-01" (some 100)])]⟩)])]⟩

/-- Fact bag whose `Assets` tag carries only a `USD/shares` observation. -/
def cfPerShareAssets : Option CompanyFacts :=
  some ⟨some [("us-gaap",
    [("Assets", ⟨some [("USD/shares", [mkEntry "2023-12-31" "10-K" 2023 "2024-02-01" (some 7)])]⟩)])]⟩

/-- Fact bag whose only observation is a `Revenues` value of 0. -/
def cfZeroRevenue : Option CompanyFacts :=
  some ⟨some [("us-gaap",
    [("Revenues", ⟨some [("USD", [mkEntry "2023-12-31" "10-K" 2023 "2024-02-01" (some 0)])]⟩)])]⟩

/-- The us-gaap map of `cfZeroRevenue`. -/
def gZeroRevenue : GaapMap :=
  [("Revenues", ⟨some [("USD", [mkEntry "2023-12-31" "10-K" 2023 "2024-02-01" (some 0)])]⟩)]

/-- Fact bag where `Revenues` matches the period with an absent `val`
(filed 2020-01-01) while `NetIncomeLoss` resolves to 5 (filed 2021-01-01). -/
def cfFiledDate : Option CompanyFacts :=
  some ⟨some [("us-gaap",
    [("Revenues", ⟨some [("USD", [⟨some "2023-12-31", some "10-K", some 2023, some "2020-01-01", none⟩])]⟩),
     ("NetIncomeLoss", ⟨some [("USD", [mkEntry "2023-12-31" "10-K" 2023 "2021-01-01" (some 5)])]⟩)])]⟩

/-- The us-gaap map of `cfFiledDate`. -/
def gFiledDate : GaapMap :=
  [("Revenues", ⟨some [("USD", [⟨some "2023-12-31", some "10-K", some 2023, some "2020-01-01", none⟩])]⟩),
   ("NetIncomeLoss", ⟨some [("USD", [mkEntry "2023-12-31" "10-K" 2023 "2021-01-01" (some 5)])]⟩)]

/-- Fact bag populating two aliases of `revenue` with different values for
the same period: `Revenues` 10 and `SalesRevenueNet` 20. -/
def gTwoAliases : GaapMap :=
  [("Revenues", ⟨some [("USD", [mkEntry "2023-12-31" "10-K" 2023 "2024-02-01" (some 10)])]⟩),
   ("SalesRevenueNet", ⟨some [("USD", [mkEntry "2023-12-31" "10-K" 2023 "2024-02-01" (some 20)])]⟩)]

/-- A well-formed record for CIK 0000320193 that names no entity of an empty
companies table. -/
def recOrphan : FinancialRecord :=
  { cik := "0000320193", period_end_date := some "2023-12-31",
    form_type := some "10-K", fiscal_year := some 2023,
    filing_date := some "2024-02-01",
    metrics := [("revenue", some 1000), ("net_income", some 100)] }

/-- First record of the C1 witness. -/
def recA : FinancialRecord :=
  { cik := "0001", period_end_date := some "2023-12-31", form_type := some "10-K",
    fiscal_year := some 2023, filing_date := some "2024-02-01",
    metrics := [("revenue", some 1000)] }

/-- Second record of the C1 witness: same key triple, different values. -/
def recB : FinancialRecord :=
  { cik := "0001", period_end_date := some "2023-12-31", form_type := some "10-K",
    fiscal_year := some 2023, filing_date := some "2024-03-01",
    metrics := [("revenue", some 2222), ("net_income", some 44)] }

/-- Company row of the export witnesses. -/
def coW : CompanyRow :=
  { cik := "0001", ticker := "AAA", company_name := "A Inc", sic_code := none,
    industry := none }

/-- Statement row with revenue 0, absent current liabilities and negative
total assets: every ratio guard must fire. -/
def fsGuard : StatementRow :=
  { cik := "0001", filing_date := "2024-02-01", period_end_date := "2023-12-31",
    form_type := "10-K", fiscal_year := 2023, fiscal_quarter := none,
    revenue := some 0, cost_of_revenue := none, gross_profit := none,
    operating_expenses := none, operating_income := some 3, net_income := some 100,
    eps_basic := none, eps_diluted := none, shares_outstanding := none,
    total_assets := some (-5), current_assets := some 9,
    total_liabilities := some 2, current_liabilities := none,
    stockholders_equity := none, operating_cash_flow := none,
    investing_cash_flow := none, financing_cash_flow := none,
    free_cash_flow := none, accession_number := none }

/-- Statement row with non-null revenue for the export witness. -/
def fsW : StatementRow :=
  { cik := "0001", filing_date := "2024-02-01", period_end_date := "2023-12-31",
    form_type := "10-K", fiscal_year := 2023, fiscal_quarter := none,
    revenue := some 1000, cost_of_revenue := none, gross_profit := none,
    operating_expenses := none, operating_income := none, net_income := some 100,
    eps_basic := none, eps_diluted := none, shares_outstanding := none,
    total_assets := none, current_assets := none,
    total_liabilities := none, current_liabilities := none,
    stockholders_equity := none, operating_cash_flow := none,
    investing_cash_flow := none, financing_cash_flow := none,
    free_cash_flow := none, accession_number := none }

/-- Database of the C10 witness: one company, one record with revenue. -/
def dbW : Database :=
  { companies := [coW], financial_statements := [fsW] }

/-! ### Helper lemmas -/

theorem alookup_map {α β : Type} (f : α → β) (l : List (String × α)) (k : String) :
    alookup (l.map (fun p => (p.1, f p.2))) k = (alookup l k).map f := by
  induction l with
  | nil => rfl
  | cons p rest ih =>
      obtain ⟨k1, v1⟩ := p
      by_cases h : k1 = k <;> simp [alookup, h, ih]

theorem alookup_filter_key {α : Type} (pk : String → Bool) (l : List (String × α))
    (k : String) (h : pk k = true) :
    alookup (l.filter (fun q => pk q.1)) k = alookup l k := by
  induction l with
  | nil => rfl
  | cons p rest ih =>
      obtain ⟨k1, v1⟩ := p
      by_cases hk : k1 = k
      · subst hk; simp [List.filter_cons, h, alookup]
      · rcases hpk : pk k1 <;> simp [List.filter_cons, hpk, alookup, hk, ih]

theorem truthyInt_eq_true_iff (o : Option Int) :
    truthyInt o = true ↔ ∃ v : Int, o = some v ∧ v ≠ 0 := by
  cases o <;> simp [truthyInt]

/-- Rows surviving a deletion on key `k` never match `k` again. -/
theorem filter_key_after_delete (l : List StatementRow) (k : String × String × String) :
    (l.filter (fun row => !(decide (rowKey row = k)))).filter
        (fun row => decide (rowKey row = k)) = [] := by
  rw [List.filter_filter]
  apply List.filter_eq_nil_iff.2
  intro row _
  by_cases h : rowKey row = k <;> simp [h]

/-! ### C1 — replace-on-conflict and key uniqueness -/

/-- Per-key row multiplicity bound on the statements table. -/
def UniqueTriples (rows : List StatementRow) : Prop :=
  ∀ k : String × String × String,
    (rows.filter (fun row => decide (rowKey row = k))).length ≤ 1

theorem uniqueTriples_nil : UniqueTriples [] := by
  intro k; simp

theorem uniqueTriples_insert (rows : List StatementRow) (r : FinancialRecord)
    (h : UniqueTriples rows) : UniqueTriples (insertStmt rows r).2 := by
  rcases hf : r.filing_date with _ | fd <;>
  rcases hp : r.period_end_date with _ | pe <;>
  rcases ht : r.form_type with _ | ft <;>
  rcases hy : r.fiscal_year with _ | fy <;>
  simp only [insertStmt, hf, hp, ht, hy] <;>
  try exact h
  intro k
  rw [List.filter_append]
  by_cases hk : k = (r.cik, pe, ft)
  · subst hk
    rw [filter_key_after_delete]
    simp [mkStatementRow, rowKey]
  · have h1 : (List.filter (fun row => decide (rowKey row = k))
        [mkStatementRow r fd pe ft fy]) = [] := by
      simp [mkStatementRow, rowKey]
      exact fun hcontra => hk (by simp [hcontra])
    rw [h1, List.append_nil]
    calc (List.filter (fun row => decide (rowKey row = k))
            (rows.filter (fun row => !(decide (rowKey row = (r.cik, pe, ft)))))).length
        ≤ (rows.filter (fun row => decide (rowKey row = k))).length :=
          ((List.filter_sublist rows).filter _).length_le
      _ ≤ 1 := h k

theorem uniqueTriples_upsertAll (rs : List FinancialRecord) (rows : List StatementRow)
    (h : UniqueTriples rows) : UniqueTriples (upsertAllStmts rs rows) := by
  induction rs generalizing rows with
  | nil => exact h
  | cons r rs ih => exact ih _ (uniqueTriples_insert rows r h)

theorem db_upsertAll_eq (rs : List FinancialRecord) (db : Database) :
    db_upsertAll rs db =
      { companies := db.companies,
        financial_statements := upsertAllStmts rs db.financial_statements } := by
  induction rs generalizing db with
  | nil => rfl
  | cons r rs ih =>
      show db_upsertAll rs (insert_financial_statement db r).2 = _
      rw [ih]
      rfl

/-- Claim C1: upserting two records with the same (entity, period-end, form)
triple leaves exactly one row for that triple, carrying the second record's
metric values; and no sequence of upserts starting from a fresh database
ever leaves two rows sharing a triple. -/
theorem C1_replace_on_conflict :
    (∀ (db : Database) (r1 r2 : FinancialRecord) (pe ft fd1 fd2 : String)
        (fy1 fy2 : Int),
      r1.cik = r2.cik →
      r1.period_end_date = some pe → r2.period_end_date = some pe →
      r1.form_type = some ft → r2.form_type = some ft →
      r1.filing_date = some fd1 → r2.filing_date = some fd2 →
      r1.fiscal_year = some fy1 → r2.fiscal_year = some fy2 →
      ((insert_financial_statement (insert_financial_statement db r1).2 r2).2).financial_statements.filter
          (fun row => decide (rowKey row = (r2.cik, pe, ft)))
        = [mkStatementRow r2 fd2 pe ft fy2]) ∧
    (∀ rs : List FinancialRecord,
      UniqueTriples (db_upsertAll rs init_database).financial_statements) := by
  constructor
  · intro db r1 r2 pe ft fd1 fd2 fy1 fy2 hcik hp1 hp2 ht1 ht2 hf1 hf2 hy1 hy2
    simp only [insert_financial_statement, insertStmt, hp1, hp2, ht1, ht2, hf1, hf2,
      hy1, hy2, hcik]
    rw [List.filter_append, filter_key_after_delete]
    simp [mkStatementRow, rowKey]
  · intro rs
    rw [db_upsertAll_eq]
    exact uniqueTriples_upsertAll rs _ uniqueTriples_nil

/-- Witness for C1 at concrete records `recA`, `recB`. -/
theorem C1_replace_on_conflict_witness :
    ((insert_financial_statement (insert_financial_statement init_database recA).2 recB).2).financial_statements.filter
        (fun row => decide (rowKey row = (recB.cik, "2023-12-31", "10-K")))
      = [mkStatementRow recB "2024-03-01" "2023-12-31" "10-K" 2023] :=
  C1_replace_on_conflict.1 init_database recA recB "2023-12-31" "10-K"
    "2024-02-01" "2024-03-01" 2023 2023 rfl rfl rfl rfl rfl rfl rfl rfl rfl

/-! ### C2 — insert with a missing entity succeeds (foreign key unenforced) -/

/-- Claim C2 fails on the code: inserting a record whose `cik` names no row
of the (empty) companies table returns success and adds the row, because no
sqlite3 connection ever issues `PRAGMA foreign_keys=ON` and SQLite leaves
foreign-key enforcement off by default.  The companies table is untouched
(the store indeed never auto-creates the entity). -/
theorem C2_missing_entity_insert :
    init_database.companies = [] ∧
    (insert_financial_statement init_database recOrphan).1 = true ∧
    (insert_financial_statement init_database recOrphan).2.financial_statements
      = [mkStatementRow recOrphan "2024-02-01" "2023-12-31" "10-K" 2023] ∧
    (insert_financial_statement init_database recOrphan).2.companies = [] :=
  ⟨rfl, rfl, rfl, rfl⟩

/-! ### C6 — malformed or absent fact bags -/

/-- Claim C6: an absent fact bag, a bag without the `facts` key, and a bag
whose `facts` lack the `us-gaap` taxonomy all extract to the empty record
sequence (the Lean model is total, so no error can be raised). -/
theorem C6_malformed_bag :
    (∀ cik, extract_financial_metrics none cik = []) ∧
    (∀ cik, extract_financial_metrics (some ⟨none⟩) cik = []) ∧
    (∀ cik (m : List (String × GaapMap)), alookup m "us-gaap" = none →
      extract_financial_metrics (some ⟨some m⟩) cik = []) := by
  refine ⟨fun _ => rfl, fun _ => rfl, fun cik m h => ?_⟩
  simp only [extract_financial_metrics, usGaapOf, alookupD, h, Option.getD_some,
    Option.getD_none]
  rfl

/-- Witness for C6 at a fact bag containing only the `dei` taxonomy. -/
theorem C6_malformed_bag_witness :
    extract_financial_metrics (some ⟨some [("dei", [])]⟩) "0000000001" = [] :=
  C6_malformed_bag.2.2 "0000000001" [("dei", [])] rfl

/-! ### C7 — division guards in the export -/

/-- Claim C7: for any joined pair, a revenue that is not strictly positive
(null, zero or negative) yields null margins; a current-liabilities value
not strictly positive yields a null current ratio; a total-assets value not
strictly positive yields a null debt-to-assets ratio.  (Rows with null
revenue are additionally filtered out of the export entirely, see C10; the
ratio columns are computed exactly as here for every row that does appear.) -/
theorem C7_ratio_guard (c : CompanyRow) (fs : StatementRow) :
    ((∀ v : Int, fs.revenue = some v → v ≤ 0) →
      (exportRow c fs).net_margin_percent = none ∧
      (exportRow c fs).operating_margin_percent = none) ∧
    ((∀ v : Int, fs.current_liabilities = some v → v ≤ 0) →
      (exportRow c fs).current_ratio = none) ∧
    ((∀ v : Int, fs.total_assets = some v → v ≤ 0) →
      (exportRow c fs).debt_to_assets_percent = none) := by
  refine ⟨fun h => ?_, fun h => ?_, fun h => ?_⟩
  · rcases hr : fs.revenue with _ | rv
    · constructor <;> simp [exportRow, hr]
    · have hle := h rv hr
      have hneg : ¬ (0 : Int) < rv := by omega
      constructor <;> simp [exportRow, hr, hneg]
  · rcases hr : fs.current_liabilities with _ | cl
    · simp [exportRow, hr]
    · have hle := h cl hr
      have hneg : ¬ (0 : Int) < cl := by omega
      simp [exportRow, hr, hneg]
  · rcases hr : fs.total_assets with _ | ta
    · simp [exportRow, hr]
    · have hle := h ta hr
      have hneg : ¬ (0 : Int) < ta := by omega
      simp [exportRow, hr, hneg]

/-- Witness for C7 at a row with zero revenue, absent current liabilities
and negative total assets. -/
theorem C7_ratio_guard_witness :
    (exportRow coW fsGuard).net_margin_percent = none ∧
    (exportRow coW fsGuard).operating_margin_percent = none ∧
    (exportRow coW fsGuard).current_ratio = none ∧
    (exportRow coW fsGuard).debt_to_assets_percent = none := by
  obtain ⟨h1, h2, h3⟩ := C7_ratio_guard coW fsGuard
  have g1 := h1 (fun v hv => by
    have hv' : (some (0 : Int)) = some v := hv
    injection hv' with h
    omega)
  have g2 := h2 (fun v hv => by
    have hv' : (none : Option Int) = some v := hv
    exact absurd hv' (by simp))
  have g3 := h3 (fun v hv => by
    have hv' : (some (-5 : Int)) = some v := hv
    injection hv' with h
    omega)
  exact ⟨g1.1, g1.2, g2, g3⟩

/-! ### C10 — the export only contains rows with non-null revenue -/

theorem mem_insertSorted (x a : ExportRow) (l : List ExportRow) :
    a ∈ insertSorted x l ↔ a = x ∨ a ∈ l := by
  induction l with
  | nil => simp [insertSorted]
  | cons y ys ih =>
      cases h : rowLE x y with
      | true => simp [insertSorted, h]
      | false =>
          simp only [insertSorted, h, if_neg, Bool.false_eq_true, if_false,
            List.mem_cons, ih]
          tauto

theorem mem_sortRows (a : ExportRow) (l : List ExportRow) :
    a ∈ sortRows l ↔ a ∈ l := by
  induction l with
  | nil => simp [sortRows]
  | cons x xs ih => simp [sortRows, mem_insertSorted, ih]

/-- Claim C10: every exported row comes from a stored record with non-null
revenue joined to its company, and deleting the null-revenue records from
the store does not change the export at all (they never appear; the store
itself is not modified by the read-only export). -/
theorem C10_export_revenue_filter (db : Database) :
    (∀ row ∈ export_for_powerbi db,
      ∃ c ∈ db.companies, ∃ fs ∈ db.financial_statements,
        c.cik = fs.cik ∧ fs.revenue ≠ none ∧ row = exportRow c fs) ∧
    export_for_powerbi
        { companies := db.companies,
          financial_statements :=
            db.financial_statements.filter (fun fs => fs.revenue.isSome) }
      = export_for_powerbi db := by
  constructor
  · intro row hrow
    rw [export_for_powerbi, mem_sortRows, List.mem_flatMap] at hrow
    obtain ⟨fs, hfs, hrow⟩ := hrow
    rw [List.mem_filter] at hfs
    rw [List.mem_map] at hrow
    obtain ⟨c, hc, rfl⟩ := hrow
    rw [List.mem_filter] at hc
    refine ⟨c, hc.1, fs, hfs.1, ?_, ?_, rfl⟩
    · exact eq_of_beq hc.2
    · exact Option.isSome_iff_ne_none.1 hfs.2
  · simp only [export_for_powerbi]
    have hff : (db.financial_statements.filter (fun fs => fs.revenue.isSome)).filter
          (fun fs => fs.revenue.isSome)
        = db.financial_statements.filter (fun fs => fs.revenue.isSome) := by
      rw [List.filter_filter]
      exact List.filter_congr (fun x _ => Bool.and_self _)
    rw [hff]

/-- Witness for C10 at a one-company, one-record database. -/
theorem C10_export_revenue_filter_witness :
    ∃ c ∈ dbW.companies, ∃ fs ∈ dbW.financial_statements,
      c.cik = fs.cik ∧ fs.revenue ≠ none ∧ exportRow coW fsW = exportRow c fs :=
  (C10_export_revenue_filter dbW).1 (exportRow coW fsW)
    (by rw [show export_for_powerbi dbW = [exportRow coW fsW] from rfl]
        exact List.mem_singleton.2 rfl)

/-! ### C9 — idempotence of extraction plus upsert -/

/-- Whether `insert_financial_statement` succeeds on a record, and with which
unwrapped `NOT NULL` values; `none` means the constraint failure path. -/
def insertOk (r : FinancialRecord) : Option (String × String × String × Int) :=
  match r.filing_date, r.period_end_date, r.form_type, r.fiscal_year with
  | some fd, some pe, some ft, some fy => some (fd, pe, ft, fy)
  | _, _, _, _ => none

theorem insertStmt_eq (rows : List StatementRow) (r : FinancialRecord) :
    insertStmt rows r =
      match insertOk r with
      | some (fd, pe, ft, fy) =>
          (true, rows.filter (fun row => !(decide (rowKey row = (r.cik, pe, ft))))
            ++ [mkStatementRow r fd pe ft fy])
      | none => (false, rows) := by
  rcases hf : r.filing_date with _ | fd <;>
  rcases hp : r.period_end_date with _ | pe <;>
  rcases ht : r.form_type with _ | ft <;>
  rcases hy : r.fiscal_year with _ | fy <;>
  simp [insertStmt, insertOk, hf, hp, ht, hy]

/-- The key triples of the records a batch successfully inserts. -/
def goodKeys (rs : List FinancialRecord) : List (String × String × String) :=
  rs.filterMap (fun r =>
    match insertOk r with
    | some (_, pe, ft, _) => some (r.cik, pe, ft)
    | none => none)

/-- Normal form of a batch upsert: rows of the initial table whose key is
never successfully written survive in place, followed by the batch's own
final rows (which are independent of the initial table). -/
theorem upsertAll_normal (rs : List FinancialRecord) (S : List StatementRow) :
    upsertAllStmts rs S =
      S.filter (fun row => !(decide (rowKey row ∈ goodKeys rs)))
        ++ upsertAllStmts rs [] := by
  induction rs generalizing S with
  | nil =>
      simp [upsertAllStmts, goodKeys]
  | cons r rs ih =>
      have hstep : ∀ T : List StatementRow,
          upsertAllStmts (r :: rs) T = upsertAllStmts rs (insertStmt T r).2 :=
        fun T => rfl
      rw [hstep S, hstep []]
      rcases hok : insertOk r with _ | ⟨fd, pe, ft, fy⟩
      · rw [insertStmt_eq S r, insertStmt_eq [] r, hok]
        have hg : goodKeys (r :: rs) = goodKeys rs := by
          simp [goodKeys, List.filterMap_cons, hok]
        rw [hg]
        exact ih S
      · rw [insertStmt_eq S r, insertStmt_eq [] r, hok]
        have hg : goodKeys (r :: rs) = (r.cik, pe, ft) :: goodKeys rs := by
          simp [goodKeys, List.filterMap_cons, hok]
        rw [hg]
        dsimp only
        rw [List.filter_nil, List.nil_append]
        rw [ih, ih [mkStatementRow r fd pe ft fy]]
        rw [List.filter_append]
        have hcomb : ((S.filter (fun row => !(decide (rowKey row = (r.cik, pe, ft))))).filter
              (fun row => !(decide (rowKey row ∈ goodKeys rs))))
            = S.filter (fun row => !(decide (rowKey row ∈ (r.cik, pe, ft) :: goodKeys rs))) := by
          rw [List.filter_filter]
          apply List.filter_congr
          intro row _
          by_cases h1 : rowKey row = (r.cik, pe, ft) <;>
          by_cases h2 : rowKey row ∈ goodKeys rs <;>
          simp [h1, h2]
        rw [hcomb, List.append_assoc]

/-- Every row a batch writes into an empty table carries one of the batch's
successfully-inserted keys. -/
theorem mem_upsertAll_nil_key (rs : List FinancialRecord) :
    ∀ row ∈ upsertAllStmts rs [], rowKey row ∈ goodKeys rs := by
  induction rs with
  | nil => intro row h; simp [upsertAllStmts] at h
  | cons r rs ih =>
      intro row h
      rw [show upsertAllStmts (r :: rs) [] = upsertAllStmts rs (insertStmt [] r).2 from rfl,
        insertStmt_eq [] r] at h
      rcases hok : insertOk r with _ | ⟨fd, pe, ft, fy⟩ <;> rw [hok] at h
      · have hg : goodKeys (r :: rs) = goodKeys rs := by
          simp [goodKeys, List.filterMap_cons, hok]
        rw [hg]
        exact ih row h
      · have hg : goodKeys (r :: rs) = (r.cik, pe, ft) :: goodKeys rs := by
          simp [goodKeys, List.filterMap_cons, hok]
        rw [hg]
        dsimp only at h
        rw [List.filter_nil, List.nil_append,
          upsertAll_normal rs [mkStatementRow r fd pe ft fy]] at h
        rcases List.mem_append.1 h with h1 | h2
        · have hmem := (List.mem_filter.1 h1).1
          have hrow : row = mkStatementRow r fd pe ft fy := by
            simpa using hmem
          subst hrow
          exact List.mem_cons.2 (Or.inl rfl)
        · exact List.mem_cons.2 (Or.inr (ih row h2))

/-- Running the same batch twice is the same as running it once. -/
theorem upsertAll_idem (rs : List FinancialRecord) (S : List StatementRow) :
    upsertAllStmts rs (upsertAllStmts rs S) = upsertAllStmts rs S := by
  have h2 := upsertAll_normal rs (upsertAllStmts rs S)
  rw [h2, upsertAll_normal rs S, List.filter_append]
  have hfp : ((S.filter (fun row => !(decide (rowKey row ∈ goodKeys rs)))).filter
        (fun row => !(decide (rowKey row ∈ goodKeys rs))))
      = S.filter (fun row => !(decide (rowKey row ∈ goodKeys rs))) := by
    rw [List.filter_filter]
    exact List.filter_congr fun x _ => Bool.and_self _
  have hT : ((upsertAllStmts rs []).filter
        (fun row => !(decide (rowKey row ∈ goodKeys rs)))) = [] :=
    List.filter_eq_nil_iff.2 (fun row hrow => by
      simp [mem_upsertAll_nil_key rs row hrow])
  rw [hfp, hT, List.append_nil]

/-- Claim C9: running extraction followed by upsert of every produced record
twice on the same fact bag leaves the database — row count and row content —
exactly as after one run, from any starting state. -/
theorem C9_extract_upsert_idempotent (cf : Option CompanyFacts) (cik : String)
    (db : Database) :
    db_upsertAll (extract_financial_metrics cf cik)
        (db_upsertAll (extract_financial_metrics cf cik) db)
      = db_upsertAll (extract_financial_metrics cf cik) db := by
  simp only [db_upsertAll_eq]
  rw [upsertAll_idem]

/-! ### C4 — alias priority -/

theorem eq_none_pair (st : ResState) (h : st.1 = none) : st = (none, st.2) := by
  obtain ⟨a, b⟩ := st
  exact congrArg (fun z => (z, b)) h

theorem scanAliases_append (g : GaapMap) (pe ft : Option String) (fy : Option Int)
    (xs ys : List String) (fd : Option String) :
    scanAliases g pe ft fy (xs ++ ys) (none, fd) =
      if (scanAliases g pe ft fy xs (none, fd)).1.isSome then
        scanAliases g pe ft fy xs (none, fd)
      else scanAliases g pe ft fy ys (scanAliases g pe ft fy xs (none, fd)) := by
  induction xs generalizing fd with
  | nil => simp [scanAliases]
  | cons a xs ih =>
      simp only [List.cons_append, scanAliases]
      rcases h2 : (aliasStep g pe ft fy a (none, fd)).1 with _ | v
      · have hshape := eq_none_pair (aliasStep g pe ft fy a (none, fd)) h2
        simp only [h2, Option.isSome_none, Bool.false_eq_true, if_false]
        rw [hshape]
        exact ih _
      · simp [h2]

theorem getMetric_buildRecord (cik : String) (g : GaapMap) (pe ft : Option String)
    (fy : Option Int) (m : String) :
    getMetric (buildRecord cik g pe ft fy) m
      = ((alookup metric_mappings m).map
          (fun als => (resolveMetric g pe ft fy als).1)).getD none := by
  unfold getMetric buildRecord resolvedMetrics
  dsimp only
  rw [List.map_map]
  rw [show ((fun p : String × ResState => (p.1, p.2.1))
        ∘ (fun p : String × List String => (p.1, resolveMetric g pe ft fy p.2)))
      = (fun p : String × List String =>
          (p.1, (fun als => (resolveMetric g pe ft fy als).1) p.2)) from rfl]
  exact congrArg (fun o => o.getD none)
    (alookup_map (fun als => (resolveMetric g pe ft fy als).1) metric_mappings m)

/-- Claim C4: when the alias list of a canonical metric is `pre ++ a1 :: suf`,
no alias of `pre` resolves a value for the period key, and `a1` resolves `v1`
(for any incoming loop state) while the later alias `a2` resolves a different
value `v2`, the assembled record carries `v1` — first match wins,
deterministically. -/
theorem C4_alias_priority (g : GaapMap) (pe ft : Option String) (fy : Option Int)
    (cik m : String) (pre suf : List String) (a1 a2 : String) (v1 v2 : Int)
    (hm : alookup metric_mappings m = some (pre ++ a1 :: suf))
    (hpre : (scanAliases g pe ft fy pre (none, none)).1 = none)
    (ha1 : ∀ fd : Option String, (aliasStep g pe ft fy a1 (none, fd)).1 = some v1)
    (hmem : a2 ∈ suf)
    (ha2 : ∀ fd : Option String, (aliasStep g pe ft fy a2 (none, fd)).1 = some v2)
    (hne : v1 ≠ v2) :
    getMetric (buildRecord cik g pe ft fy) m = some v1 := by
  rw [getMetric_buildRecord, hm]
  show (resolveMetric g pe ft fy (pre ++ a1 :: suf)).1 = some v1
  unfold resolveMetric
  rw [scanAliases_append g pe ft fy pre (a1 :: suf) none, hpre]
  have hshape := eq_none_pair (scanAliases g pe ft fy pre (none, none)) hpre
  simp only [Option.isSome_none, Bool.false_eq_true, if_false]
  rw [hshape]
  have h1 := ha1 (scanAliases g pe ft fy pre (none, none)).2
  simp only [scanAliases, h1, Option.isSome_some, if_true]

/-- Witness for C4: `Revenues` (priority alias, value 10) beats
`SalesRevenueNet` (later alias, value 20) for the same period key. -/
theorem C4_alias_priority_witness :
    getMetric (buildRecord "0000000001" gTwoAliases (some "2023-12-31")
        (some "10-K") (some 2023)) "revenue" = some 10 :=
  C4_alias_priority gTwoAliases (some "2023-12-31") (some "10-K") (some 2023)
    "0000000001" "revenue" []
    ["RevenueFromContractWithCustomerExcludingAssessedTax", "SalesRevenueNet"]
    "Revenues" "SalesRevenueNet" 10 20 rfl rfl (fun _ => rfl) (by decide)
    (fun _ => rfl) (by decide)

/-! ### C5 — which period keys produce a record -/

/-- Claim C5 fails on the code: the all-null suppression is a Python
truthiness test, so a record whose only resolved metric is the non-null
value 0 is discarded.  Here the period key is collected and `revenue`
resolves to `some 0`, yet extraction emits nothing. -/
theorem C5_all_null_counterexample :
    extract_financial_metrics cfZeroRevenue "0000000001" = [] ∧
    (⟨some "2023-12-31", some "10-K", some 2023⟩ : PeriodKey)
      ∈ collectPeriods gZeroRevenue ∧
    getMetric (buildRecord "0000000001" gZeroRevenue (some "2023-12-31")
        (some "10-K") (some 2023)) "revenue" = some 0 :=
  ⟨rfl, by decide, rfl⟩

/-- Amended C5: extraction emits a record for a collected, fully-truthy
period key if and only if at least one canonical metric slot resolves to a
value that is non-null **and nonzero** (Python truthiness, not mere
non-nullness). -/
theorem C5_emission_amended (cf : Option CompanyFacts) (cik : String)
    (r : FinancialRecord) :
    r ∈ extract_financial_metrics cf cik ↔
      ∃ pk ∈ collectPeriods (usGaapOf cf),
        (truthyStr pk.end_ && truthyStr pk.form && truthyInt pk.fy) = true ∧
        r = buildRecord cik (usGaapOf cf) pk.end_ pk.form pk.fy ∧
        ∃ p ∈ r.metrics, ∃ v : Int, p.2 = some v ∧ v ≠ 0 := by
  cases cf with
  | none =>
      constructor
      · intro h
        exact absurd h (List.not_mem_nil r)
      · rintro ⟨pk, hpk, -⟩
        exact absurd hpk (List.not_mem_nil pk)
  | some c =>
      simp only [extract_financial_metrics, List.mem_filterMap]
      constructor
      · rintro ⟨pk, hpk, hf⟩
        refine ⟨pk, hpk, ?_⟩
        by_cases hguard :
            (truthyStr pk.end_ && truthyStr pk.form && truthyInt pk.fy) = true
        · rw [if_pos hguard] at hf
          by_cases hany : anyTruthyMetric
              (buildRecord cik (usGaapOf (some c)) pk.end_ pk.form pk.fy) = true
          · rw [if_pos hany] at hf
            have hr := Option.some.inj hf
            subst hr
            refine ⟨hguard, rfl, ?_⟩
            obtain ⟨p, hp, htr⟩ := List.any_eq_true.1 hany
            obtain ⟨v, hv, hvne⟩ := (truthyInt_eq_true_iff p.2).1 htr
            exact ⟨p, hp, v, hv, hvne⟩
          · rw [if_neg hany] at hf
            exact absurd hf (by simp)
        · rw [if_neg hguard] at hf
          exact absurd hf (by simp)
      · rintro ⟨pk, hpk, hguard, hr, p, hp, v, hv, hvne⟩
        refine ⟨pk, hpk, ?_⟩
        rw [if_pos hguard]
        have hany : anyTruthyMetric
            (buildRecord cik (usGaapOf (some c)) pk.end_ pk.form pk.fy) = true := by
          rw [← hr]
          exact List.any_eq_true.2 ⟨p, hp, (truthyInt_eq_true_iff p.2).2 ⟨v, hv, hvne⟩⟩
        rw [if_pos hany, hr]

/-! ### C8 — where the record's filing date comes from -/

/-- Modelled from the claim's words, for comparison with the code: the filed
date carried by the first canonical metric, in metric iteration order, whose
slot resolves to a non-null value. -/
def claimFiledDate (g : GaapMap) (pe ft : Option String) (fy : Option Int) :
    Option String :=
  match (resolvedMetrics g pe ft fy).find? (fun p => p.2.1.isSome) with
  | some p => p.2.2
  | none => none

/-- Claim C8 fails on the code: with `Revenues` matching the period through
an observation whose `val` is absent (filed 2020-01-01) and `NetIncomeLoss`
resolving 5 (filed 2021-01-01), the first metric resolving a non-null value
is `net_income`, so the claim predicts 2021-01-01 — but the code keeps the
filed date of the unresolved `revenue` match. -/
theorem C8_filed_date_counterexample :
    (extract_financial_metrics cfFiledDate "0000000001").map (fun r => r.filing_date)
      = [some "2020-01-01"] ∧
    claimFiledDate gFiledDate (some "2023-12-31") (some "10-K") (some 2023)
      = some "2021-01-01" ∧
    (some "2020-01-01" : Option String) ≠ some "2021-01-01" :=
  ⟨rfl, rfl, by decide⟩

theorem firstFiled_eq_find (l : List (String × ResState)) :
    firstFiled l = ((l.map (fun p => p.2.2)).find? truthyStr).getD none := by
  induction l with
  | nil => rfl
  | cons p rest ih =>
      obtain ⟨m, v, fd⟩ := p
      simp only [firstFiled, List.map_cons, List.find?_cons]
      rcases h : truthyStr fd with _ | _
      · simpa [h] using ih
      · simp [h]

/-- Amended C8: the assembled record's `filing_date` is the filed date left
by the first metric, in metric iteration order, whose alias scan ends with a
truthy filed string — regardless of whether that metric's value resolved to
non-null.  (When the first such metric also resolves a value, this agrees
with the claim; the counterexample shows the two rules differ otherwise.) -/
theorem C8_filed_date_amended (g : GaapMap) (cik : String) (pe ft : Option String)
    (fy : Option Int) :
    (buildRecord cik g pe ft fy).filing_date
      = (((resolvedMetrics g pe ft fy).map (fun p => p.2.2)).find? truthyStr).getD none := by
  unfold buildRecord
  exact firstFiled_eq_find _

/-! ### C3 — unit-kind filtering -/

/-- Claim C3 fails on the code: the resolution loop tries `USD` then
`USD/shares` for **every** metric — there is no per-metric acceptable-unit
set — so a `USD/shares` observation under the `Assets` alias supplies
`total_assets` when no `USD` observation matches the key. -/
theorem C3_unit_kind_counterexample :
    (extract_financial_metrics cfPerShareAssets "0000000001").map
        (fun r => getMetric r "total_assets") = [some 7] := rfl

/-- Delete every observation list held under a unit kind other than `USD`
and `USD/shares` from a unit map. -/
def scrubUnitMap (u : UnitMap) : UnitMap :=
  u.filter (fun q => acceptUnit q.1)

/-- Scrub the unit map of one tag. -/
def scrubTag (t : TagData) : TagData :=
  ⟨t.units.map scrubUnitMap⟩

/-- Scrub every tag of a taxonomy map. -/
def scrubGaap (g : GaapMap) : GaapMap :=
  g.map (fun q => (q.1, scrubTag q.2))

/-- Scrub a whole fact bag. -/
def scrubFacts : Option CompanyFacts → Option CompanyFacts :=
  Option.map (fun c =>
    ⟨c.facts.map (fun fs => fs.map (fun q => (q.1, scrubGaap q.2)))⟩)

theorem usGaapOf_scrubFacts (cf : Option CompanyFacts) :
    usGaapOf (scrubFacts cf) = scrubGaap (usGaapOf cf) := by
  cases cf with
  | none => rfl
  | some c =>
      cases hf : c.facts with
      | none => simp [scrubFacts, usGaapOf, hf, alookupD, alookup, scrubGaap]
      | some m =>
          simp only [scrubFacts, usGaapOf, hf, Option.map_some', Option.getD_some,
            alookupD]
          rw [alookup_map]
          cases halk : alookup m "us-gaap" <;> simp [halk, scrubGaap]

theorem unitsOf_scrubTag (td : TagData) :
    unitsOf (scrubTag td) = scrubUnitMap (unitsOf td) := by
  obtain ⟨u⟩ := td
  cases u <;> rfl

theorem periodsOfUnits_scrub (u : UnitMap) :
    ∀ acc, periodsOfUnits acc (scrubUnitMap u) = periodsOfUnits acc u := by
  induction u with
  | nil => intro acc; rfl
  | cons q rest ih =>
      intro acc
      obtain ⟨ut, entries⟩ := q
      rcases h : acceptUnit ut with _ | _ <;>
        simp [scrubUnitMap, List.filter_cons, h, periodsOfUnits, ih] <;>
        exact ih _

theorem periodsOfAliases_scrub (g : GaapMap) :
    ∀ (as_ : List String) (acc : List PeriodKey),
      periodsOfAliases (scrubGaap g) acc as_ = periodsOfAliases g acc as_ := by
  intro as_
  induction as_ with
  | nil => intro acc; rfl
  | cons a rest ih =>
      intro acc
      simp only [periodsOfAliases, scrubGaap, alookup_map]
      cases halk : alookup g a with
      | none => simpa [halk] using ih acc
      | some td =>
          simp only [halk, Option.map_some']
          rw [show scrubTag td = scrubTag td from rfl]
          rw [unitsOf_scrubTag, periodsOfUnits_scrub]
          exact ih _

theorem collectPeriods_scrub (g : GaapMap) :
    collectPeriods (scrubGaap g) = collectPeriods g := by
  unfold collectPeriods
  congr 1
  funext acc p
  exact periodsOfAliases_scrub g p.2 acc

theorem scanUnits_scrub (u : UnitMap) (pe ft : Option String) (fy : Option Int) :
    ∀ (uts : List String), (∀ ut ∈ uts, acceptUnit ut = true) →
      ∀ st, scanUnits (scrubUnitMap u) pe ft fy uts st = scanUnits u pe ft fy uts st := by
  intro uts
  induction uts with
  | nil => intro _ st; rfl
  | cons ut rest ih =>
      intro h st
      have hut : acceptUnit ut = true := h ut (List.mem_cons_self ut rest)
      have hrest : ∀ x ∈ rest, acceptUnit x = true :=
        fun x hx => h x (List.mem_cons_of_mem ut hx)
      simp only [scanUnits, scrubUnitMap, alookup_filter_key _ u ut hut]
      split
      · rfl
      · exact ih hrest _

theorem aliasStep_scrub (g : GaapMap) (pe ft : Option String) (fy : Option Int)
    (a : String) (st : ResState) :
    aliasStep (scrubGaap g) pe ft fy a st = aliasStep g pe ft fy a st := by
  unfold aliasStep
  simp only [scrubGaap, alookup_map]
  cases halk : alookup g a with
  | none => rfl
  | some td =>
      simp only [Option.map_some']
      rw [unitsOf_scrubTag]
      exact scanUnits_scrub (unitsOf td) pe ft fy ["USD", "USD/shares"] (by decide) st

theorem scanAliases_scrub (g : GaapMap) (pe ft : Option String) (fy : Option Int) :
    ∀ (as_ : List String) (st : ResState),
      scanAliases (scrubGaap g) pe ft fy as_ st = scanAliases g pe ft fy as_ st := by
  intro as_
  induction as_ with
  | nil => intro st; rfl
  | cons a rest ih =>
      intro st
      simp only [scanAliases, aliasStep_scrub]
      split
      · rfl
      · exact ih _

theorem buildRecord_scrub (cik : String) (g : GaapMap) (pe ft : Option String)
    (fy : Option Int) :
    buildRecord cik (scrubGaap g) pe ft fy = buildRecord cik g pe ft fy := by
  unfold buildRecord resolvedMetrics resolveMetric
  simp only [scanAliases_scrub]

/-- Amended C3: the extraction ignores every observation list held under a
unit kind other than `USD` and `USD/shares` — deleting all of them changes
nothing — but it applies the same two unit kinds to every metric, with no
per-metric restriction; in particular a `USD/shares` observation can supply
`total_assets` (see the counterexample). -/
theorem C3_unit_kind_amended (cf : Option CompanyFacts) (cik : String) :
    extract_financial_metrics (scrubFacts cf) cik = extract_financial_metrics cf cik := by
  cases cf with
  | none => rfl
  | some c =>
      have hg : usGaapOf (scrubFacts (some c)) = scrubGaap (usGaapOf (some c)) :=
        usGaapOf_scrubFacts (some c)
      rcases hsc : scrubFacts (some c) with _ | c'
      · exact absurd hsc (by simp [scrubFacts])
      · rw [hsc] at hg
        simp only [extract_financial_metrics, hg, collectPeriods_scrub,
          buildRecord_scrub]

end SecPipeline
